import Mathlib

/-!
Shallow embedding of `src/utils/locationUpdateQueue.js` (the offline-tolerant
location-update delivery queue) and of the payment-calculation utility
(`calculateDriverCollection` / `getErrorFallback`) from the same repository.

Modelling choices, stated once here:
* JavaScript async functions are modelled as pure state-transformers; one
  `processQueue` pass is modelled as an atomic step (the module enforces
  at-most-one concurrent pass through `isProcessing`, and awaited calls are
  sequenced within the pass).
* The `AsyncStorage` cell under the single key `failedLocationUpdates` is the
  `StoredVal` type: `absent` (getItem returns null), `corrupt` (a stored string
  that `JSON.parse` rejects), or `val q` (a well-formed serialized queue).
  Read/write faults of the storage API are supplied as boolean oracles
  (`readThrows`, `writeThrows`): the source catches those exceptions.
* `actions.logsApi` (the transport call) is an oracle
  `send : QueueItem → Except JsError ApiResult`: `.ok r` is a returned result
  whose `error` field the source inspects, `.error e` is a thrown exception
  caught by the `catch` inside the per-item loop.
* The opaque `locationData` / `headers` payloads are modelled as `Nat` ids;
  the source never inspects them.
* `NetInfo` is `NetState`: `unavailable` (the require failed and `NetInfo`
  is null), `conn b` (available, `fetch()` resolves with `isConnected = b`),
  or `fetchThrows` (available but `fetch()` rejects, caught by the outer
  try/catch of `processQueue`).
* The one-shot `setTimeout` of `scheduleRetry` is modelled by the boolean
  `timerArmed` (`scheduleRetry` clears any prior timer and arms one, so a
  boolean captures the at-most-one-timer state).
-/

/-- `MAX_RETRY_COUNT` constant from `locationUpdateQueue.js` line 13. -/
def MAX_RETRY_COUNT : Nat := 3

/-- `RETRY_INTERVAL` constant (milliseconds) from `locationUpdateQueue.js` line 14. -/
def RETRY_INTERVAL : Nat := 30000

/-- One queued location update: the object built in `addToQueue`
(`{ data, headers, timestamp, retryCount }`). Payload and headers are opaque. -/
structure QueueItem where
  data : Nat
  headers : Nat
  timestamp : Nat
  retryCount : Nat
deriving DecidableEq, Repr

/-- A thrown JavaScript error (contents irrelevant to the queue logic). -/
def JsError : Type := String

/-- The resolved value of `actions.logsApi`: the source only reads `result.error`. -/
structure ApiResult where
  error : Bool
deriving DecidableEq, Repr

/-- Content of the `AsyncStorage` cell under `LOCATION_QUEUE_KEY`. -/
inductive StoredVal where
  | absent
  | corrupt
  | val (q : List QueueItem)
deriving DecidableEq, Repr

/-- `getQueue` (lines 91-99): returns `[]` when the read throws (caught),
when nothing is stored (`getItem` returned null), or when `JSON.parse`
throws on a corrupt string (also caught). -/
def getQueue (readThrows : Bool) (st : StoredVal) : List QueueItem :=
  if readThrows then []
  else
    match st with
    | .absent => []
    | .corrupt => []
    | .val q => q

/-- `saveQueue` (lines 102-108): `setItem` failure is caught and logged, so a
failed write leaves the persisted cell unchanged. -/
def saveQueue (writeThrows : Bool) (q : List QueueItem) (st : StoredVal) : StoredVal :=
  if writeThrows then st else .val q

/-- The new item built at `addToQueue` lines 57-62 (`retryCount: 0`). -/
def mkItem (d h now : Nat) : QueueItem :=
  { data := d, headers := h, timestamp := now, retryCount := 0 }

/-- Lines 67-69 of `addToQueue`: `if (queue.length > 50) queue.shift();`
(one `shift`, run after the `push`). -/
def trimQueue (q : List QueueItem) : List QueueItem :=
  if q.length > 50 then q.tail else q

/-- The store-updating part of `addToQueue` (lines 56-71): load, push the new
item, trim to 50 by dropping the oldest, write back (write faults are caught
by the surrounding try/catch, leaving the cell unchanged). -/
def enqueueStore (readThrows writeThrows : Bool) (st : StoredVal) (item : QueueItem) :
    StoredVal :=
  let queue := getQueue readThrows st
  let queue1 := queue ++ [item]
  let queue2 := trimQueue queue1
  saveQueue writeThrows queue2 st

/-- Per-item body of the `processQueue` loop (lines 137-158).
`.ok r` is the try branch: `if (!result.error || item.retryCount >= MAX_RETRY_COUNT)
continue;` else increment and re-queue. `.error _` is the catch branch:
re-queue with incremented count only when `item.retryCount < MAX_RETRY_COUNT`.
`none` means the item is not carried forward. -/
def stepOutcome (result : Except JsError ApiResult) (item : QueueItem) : Option QueueItem :=
  match result with
  | .ok r =>
      if r.error = false ∨ item.retryCount ≥ MAX_RETRY_COUNT then none
      else some { item with retryCount := item.retryCount + 1 }
  | .error _ =>
      if item.retryCount < MAX_RETRY_COUNT then
        some { item with retryCount := item.retryCount + 1 }
      else none

/-- The `for (const item of queue)` loop of `processQueue` (lines 134-159):
returns `(remainingItems, attempted)` where `attempted` records the delivery
attempts in the order they were made (every item is attempted exactly once). -/
def processPass (send : QueueItem → Except JsError ApiResult) :
    List QueueItem → List QueueItem × List QueueItem
  | [] => ([], [])
  | item :: rest =>
    let tailRes := processPass send rest
    match stepOutcome (send item) item with
    | none => (tailRes.1, item :: tailRes.2)
    | some kept => (kept :: tailRes.1, item :: tailRes.2)

/-- Mutable state of the `LocationUpdateQueue` singleton plus the persisted cell:
`isProcessing` and `retryTimer` (as the boolean `timerArmed`) from the
constructor (lines 17-21). -/
structure QState where
  stored : StoredVal
  isProcessing : Bool
  timerArmed : Bool
deriving DecidableEq, Repr

/-- Observable effects of one `processQueue` call: delivery attempts made, and
counts of storage reads (`getItem`) and attempted storage writes (`setItem`). -/
structure Effects where
  attempts : List QueueItem
  storeReads : Nat
  storeWrites : Nat
deriving DecidableEq, Repr

def noEffects : Effects := { attempts := [], storeReads := 0, storeWrites := 0 }

/-- Availability/behaviour of `NetInfo` during one `processQueue` call. -/
inductive NetState where
  | unavailable
  | conn (isConnected : Bool)
  | fetchThrows
deriving DecidableEq, Repr

/-- Lines 128-167 of `processQueue`: the part after the connectivity check —
load the queue, return if empty, run the per-item loop, save the remainder in
one write, and `scheduleRetry()` when items remain. -/
def processQueueBody (send : QueueItem → Except JsError ApiResult)
    (readThrows writeThrows : Bool) (s : QState) : QState × Effects :=
  let queue := getQueue readThrows s.stored
  if queue.length = 0 then
    ({ stored := s.stored, isProcessing := false, timerArmed := s.timerArmed },
     { attempts := [], storeReads := 1, storeWrites := 0 })
  else
    let res := processPass send queue
    let stored1 := saveQueue writeThrows res.1 s.stored
    let timer1 := if res.1.length = 0 then s.timerArmed else true
    ({ stored := stored1, isProcessing := false, timerArmed := timer1 },
     { attempts := res.2, storeReads := 1, storeWrites := 1 })

/-- `processQueue` (lines 111-174). The guard `if (this.isProcessing) return;`
comes first; otherwise the flag is set, the connectivity check may abort
(scheduling a retry when disconnected), and the `finally` clears the flag on
every path, including when `NetInfo.fetch()` itself throws (outer catch). -/
def processQueue (net : NetState) (send : QueueItem → Except JsError ApiResult)
    (readThrows writeThrows : Bool) (s : QState) : QState × Effects :=
  if s.isProcessing then (s, noEffects)
  else
    match net with
    | .fetchThrows =>
        ({ stored := s.stored, isProcessing := false, timerArmed := s.timerArmed }, noEffects)
    | .conn false =>
        ({ stored := s.stored, isProcessing := false, timerArmed := true }, noEffects)
    | .conn true => processQueueBody send readThrows writeThrows s
    | .unavailable => processQueueBody send readThrows writeThrows s

/-- `n` successive fault-free drain passes over a queue value (the remaining
items of each pass feed the next), used to state retry-lifecycle properties. -/
def drainIter (send : QueueItem → Except JsError ApiResult) (n : Nat)
    (q : List QueueItem) : List QueueItem :=
  (fun q => (processPass send q).1)^[n] q

/-- The persisted queue denoted by a storage cell (a fault-free read). -/
def persisted (st : StoredVal) : List QueueItem := getQueue false st

/-- The last `n` elements of a list (what a bounded FIFO retains). -/
def lastN (n : Nat) (l : List α) : List α := l.drop (l.length - n)

/-- Identity of an item apart from its mutable `retryCount` field. -/
def itemKey (i : QueueItem) : Nat × Nat × Nat := (i.data, i.headers, i.timestamp)

/-!
Atomic-interleaving transition system for the NetInfo-unavailable configuration
(lines 37-40 of `init` and the `else` branch of `addToQueue` lines 79-84),
with a fault-free store. Each event runs to completion before the next
(the module's `isProcessing` flag enforces at-most-one in-flight pass, and
between events the flag is clear).
-/

/-- External events driving the queue when `NetInfo` is unavailable:
a call to `addToQueue` (which appends and then eagerly calls `processQueue`,
lines 79-84), or the `scheduleRetry` timer firing (line 182-184: the timeout
is consumed and `processQueue` runs). Each event carries the transport
behaviour in force while it runs. -/
inductive SysEvent where
  | enqueue (d h now : Nat) (send : QueueItem → Except JsError ApiResult)
  | timerFire (send : QueueItem → Except JsError ApiResult)

/-- One atomic event step in the NetInfo-unavailable, fault-free-store model. -/
def stepEvent : SysEvent → QState → QState
  | .enqueue d h now send, s =>
      let st1 := enqueueStore false false s.stored (mkItem d h now)
      (processQueue .unavailable send false false
        { stored := st1, isProcessing := s.isProcessing, timerArmed := s.timerArmed }).1
  | .timerFire send, s =>
      if s.timerArmed then
        (processQueue .unavailable send false false
          { stored := s.stored, isProcessing := s.isProcessing, timerArmed := false }).1
      else s

/-- `init` (lines 24-41) with `NetInfo` unavailable: one immediate
`processQueue()` followed by `scheduleRetry()` (which arms the timer). -/
def initSys (send : QueueItem → Except JsError ApiResult) (s : QState) : QState :=
  let s1 := (processQueue .unavailable send false false s).1
  { s1 with timerArmed := true }

/-- Run a sequence of events from a state. -/
def runEvents (evs : List SysEvent) (s : QState) : QState :=
  evs.foldl (fun s e => stepEvent e s) s

/-- Self-healing invariant: whenever the persisted queue is non-empty, a
timer-driven drain pass is armed. -/
def PendingImpliesArmed (s : QState) : Prop :=
  persisted s.stored ≠ [] → s.timerArmed = true

/-!
Embedding of the payment-calculation utility (`calculateDriverCollection`,
`getErrorFallback`). JavaScript dynamic values relevant to these functions are
modelled by `JSValue`; numbers by `JNum` (`nan` or an exact rational — the
modelled fragment has no infinities, and `parseFloat` is modelled on plain
decimal numerals with optional sign and fraction, returning `nan` otherwise,
exactly as JS does on such inputs).
-/

/-- A JavaScript number: `NaN` or a finite value (modelled exactly as ℚ). -/
inductive JNum where
  | nan
  | val (q : ℚ)
deriving DecidableEq, Repr

/-- A JavaScript value as it can appear in the order-data fields. -/
inductive JSValue where
  | undef
  | jnull
  | str (s : String)
  | num (n : JNum)
  | boolV (b : Bool)
deriving DecidableEq, Repr

/-- JavaScript truthiness (for `||` and `if`): `undefined`, `null`, `''`,
`0`, `NaN` and `false` are falsy. -/
def truthy : JSValue → Bool
  | .undef => false
  | .jnull => false
  | .str s => !s.isEmpty
  | .num .nan => false
  | .num (.val q) => decide (q ≠ 0)
  | .boolV b => b

/-- JavaScript `a || b`. -/
def jsOr (a b : JSValue) : JSValue := if truthy a then a else b

/-- JavaScript `a ?? b` (nullish coalescing, used for `collect_delivery_fees`). -/
def jsNullish (a b : JSValue) : JSValue :=
  match a with
  | .undef => b
  | .jnull => b
  | _ => a

/-- JavaScript `v === "s"` where the right operand is a string literal:
true only when `v` is a string with the same contents. -/
def jsEqStr (v : JSValue) (s : String) : Bool :=
  match v with
  | .str t => t = s
  | _ => false

/-- Value of a digit list as a natural number. -/
def digitsVal (cs : List Char) : Nat :=
  cs.foldl (fun a c => a * 10 + (c.toNat - 48)) 0

/-- JS `parseFloat` on a string, restricted to the modelled fragment: optional
leading spaces, optional sign, decimal digits with optional fractional part,
trailing garbage ignored; `NaN` when no digit is found (e.g. `parseFloat('abc')`). -/
def parseFloatStr (s : String) : JNum :=
  let cs := s.toList.dropWhile (fun c => c = ' ')
  let sgn : ℚ := match cs with
    | '-' :: _ => -1
    | _ => 1
  let cs1 := match cs with
    | '-' :: rest => rest
    | '+' :: rest => rest
    | _ => cs
  let intPart := cs1.takeWhile Char.isDigit
  let rest := cs1.dropWhile Char.isDigit
  let fracPart := match rest with
    | '.' :: r => r.takeWhile Char.isDigit
    | _ => []
  if intPart.isEmpty && fracPart.isEmpty then .nan
  else
    .val (sgn * ((digitsVal intPart : ℚ) +
      (digitsVal fracPart : ℚ) / (10 : ℚ) ^ fracPart.length))

/-- JS `parseFloat` applied to a value (the argument is first converted to a
string: `undefined`, `null` and booleans yield `NaN`; a number round-trips). -/
def parseFloatJS : JSValue → JNum
  | .str s => parseFloatStr s
  | .num n => n
  | .undef => .nan
  | .jnull => .nan
  | .boolV _ => .nan

/-- `isNaN` on a JS number. -/
def isNaNb : JNum → Bool
  | .nan => true
  | .val _ => false

/-- `Math.max(0, x)`: `NaN` when `x` is `NaN` (JS `Math.max` propagates `NaN`). -/
def jmax0 : JNum → JNum
  | .nan => .nan
  | .val q => .val (max 0 q)

/-- JS `+` on numbers: `NaN` is absorbing. -/
def jadd : JNum → JNum → JNum
  | .nan, _ => .nan
  | .val _, .nan => .nan
  | .val a, .val b => .val (a + b)

/-- The fields of `orderData` read by the payment calculation. Each field is a
dynamic JS value (`undef` models a missing field). -/
structure OrderData where
  order_source : JSValue
  delivery_fee_paid_by : JSValue
  collect_delivery_fees : JSValue
  cash_to_be_collected : JSValue
  amount : JSValue
  order_cost : JSValue
deriving DecidableEq, Repr

/-- The `breakdown` object of a collection result. `actualDeliveryFee` is only
present on the B2B / Unknown branches. -/
structure Breakdown where
  customerPayment : JNum
  deliveryFees : JNum
  actualDeliveryFee : Option JNum
  note : String
deriving DecidableEq, Repr

/-- Result object of `calculateDriverCollection`. -/
structure CollectionResult where
  totalAmount : JNum
  includesDeliveryFees : Bool
  orderType : String
  breakdown : Breakdown
deriving DecidableEq, Repr

/-- `getErrorFallback` (lines 386-400):
`Math.max(0, isNaN(fallbackAmount) ? 0 : fallbackAmount)` with the `||`-chained
field lookup; `0` when `orderData` itself is null/undefined. -/
def getErrorFallback (orderData : Option OrderData) : CollectionResult :=
  let fallbackAmount : JNum :=
    match orderData with
    | some o => parseFloatJS (jsOr o.cash_to_be_collected (jsOr o.amount (.num (.val 0))))
    | none => .val 0
  let safeFallback := jmax0 (if isNaNb fallbackAmount then .val 0 else fallbackAmount)
  { totalAmount := safeFallback
    includesDeliveryFees := false
    orderType := "Error"
    breakdown :=
      { customerPayment := safeFallback
        deliveryFees := .val 0
        actualDeliveryFee := none
        note := "Error in calculation - using customer payment only" } }

/-- `calculateDriverCollection` (lines 263-358), translated branch by branch.
Note lines 281-284: the source checks `isNaN(deliveryFees)` but only logs —
it never reassigns `deliveryFees` to 0 (despite the adjacent comment saying
`Continue with deliveryFees = 0`), so a `NaN` `order_cost` flows on unchanged. -/
def calculateDriverCollection (orderData : Option OrderData) : CollectionResult :=
  match orderData with
  | none => getErrorFallback none
  | some o =>
    let cashToCollect :=
      parseFloatJS (jsOr o.cash_to_be_collected (jsOr o.amount (.num (.val 0))))
    let deliveryFees := parseFloatJS (jsOr o.order_cost (.num (.val 0)))
    if isNaNb cashToCollect then getErrorFallback (some o)
    else
      let safeCashToCollect := jmax0 cashToCollect
      let safeDeliveryFees := jmax0 deliveryFees
      let orderSource := jsOr o.order_source (.str "dispatch_panel")
      let deliveryFeePaidBy := jsOr o.delivery_fee_paid_by (.str "restaurant")
      let collectDeliveryFees := jsNullish o.collect_delivery_fees (.boolV false)
      if jsEqStr orderSource "dispatch_panel" || jsEqStr deliveryFeePaidBy "restaurant" then
        { totalAmount := safeCashToCollect
          includesDeliveryFees := false
          orderType := "B2B"
          breakdown :=
            { customerPayment := safeCashToCollect
              deliveryFees := .val 0
              actualDeliveryFee := some safeDeliveryFees
              note := "Delivery fee paid by restaurant" } }
      else if truthy collectDeliveryFees || jsEqStr deliveryFeePaidBy "customer"
          || jsEqStr orderSource "customer_app" || jsEqStr orderSource "website" then
        { totalAmount := jadd safeCashToCollect safeDeliveryFees
          includesDeliveryFees := true
          orderType := "B2C"
          breakdown :=
            { customerPayment := safeCashToCollect
              deliveryFees := safeDeliveryFees
              actualDeliveryFee := none
              note := "Customer pays all fees" } }
      else
        { totalAmount := safeCashToCollect
          includesDeliveryFees := false
          orderType := "Unknown"
          breakdown :=
            { customerPayment := safeCashToCollect
              deliveryFees := .val 0
              actualDeliveryFee := some safeDeliveryFees
              note := "Using fallback calculation (defaulting to B2B)" } }

/-- The concrete order record exhibiting the `NaN` leak: a B2C order whose
`order_cost` is a non-numeric string. -/
def badOrder : OrderData :=
  { order_source := .str "customer_app"
    delivery_fee_paid_by := .str "customer"
    collect_delivery_fees := .undef
    cash_to_be_collected := .str "10"
    amount := .undef
    order_cost := .str "abc" }

/-- A transport behaviour that always reports success (`result.error` falsy). -/
def sendSucceeds : QueueItem → Except JsError ApiResult := fun _ => .ok { error := false }

/-- A transport behaviour that always reports failure (`result.error` truthy). -/
def sendFails : QueueItem → Except JsError ApiResult := fun _ => .ok { error := true }

/-!  Helper lemmas about the per-item step and one drain pass. -/

lemma stepOutcome_some (r : Except JsError ApiResult) (i k : QueueItem)
    (h : stepOutcome r i = some k) :
    k = { i with retryCount := i.retryCount + 1 } ∧ i.retryCount < MAX_RETRY_COUNT := by
  unfold stepOutcome at h
  cases r with
  | ok a =>
    by_cases hc : a.error = false ∨ i.retryCount ≥ MAX_RETRY_COUNT
    · simp [hc] at h
    · simp [hc] at h
      exact ⟨h.symm, by push_neg at hc; omega⟩
  | error e =>
    by_cases hc : i.retryCount < MAX_RETRY_COUNT
    · simp [hc] at h
      exact ⟨h.symm, hc⟩
    · simp [hc] at h

lemma processPass_attempts (send : QueueItem → Except JsError ApiResult)
    (q : List QueueItem) : (processPass send q).2 = q := by
  induction q with
  | nil => rfl
  | cons i rest ih =>
    unfold processPass
    cases h : stepOutcome (send i) i <;> simp [h, ih]

lemma processPass_keys_sublist (send : QueueItem → Except JsError ApiResult)
    (q : List QueueItem) :
    ((processPass send q).1.map itemKey).Sublist (q.map itemKey) := by
  induction q with
  | nil => simp [processPass]
  | cons i rest ih =>
    unfold processPass
    cases h : stepOutcome (send i) i with
    | none => simpa using ih.cons (itemKey i)
    | some k =>
      have hk : itemKey k = itemKey i := by
        rw [(stepOutcome_some _ _ _ h).1]; rfl
      simpa [hk] using ih.cons₂ (itemKey i)

lemma processPass_rc_le (send : QueueItem → Except JsError ApiResult)
    (q : List QueueItem) (hq : ∀ i ∈ q, i.retryCount ≤ MAX_RETRY_COUNT) :
    ∀ i ∈ (processPass send q).1, i.retryCount ≤ MAX_RETRY_COUNT := by
  induction q with
  | nil => simp [processPass]
  | cons i rest ih =>
    have hrest : ∀ j ∈ rest, j.retryCount ≤ MAX_RETRY_COUNT := by
      intro j hj; exact hq j (List.mem_cons_of_mem _ hj)
    unfold processPass
    cases h : stepOutcome (send i) i with
    | none => simpa using ih hrest
    | some k =>
      intro j hj
      simp at hj
      rcases hj with hj | hj
      · obtain ⟨hk, hlt⟩ := stepOutcome_some _ _ _ h
        subst hj; rw [hk]
        simpa using hlt
      · exact ih hrest j hj

lemma processPass_ext (send1 send2 : QueueItem → Except JsError ApiResult)
    (h : ∀ i, stepOutcome (send1 i) i = stepOutcome (send2 i) i) (q : List QueueItem) :
    processPass send1 q = processPass send2 q := by
  induction q with
  | nil => rfl
  | cons i rest ih => unfold processPass; rw [h i, ih]

lemma processQueueBody_flag (send : QueueItem → Except JsError ApiResult)
    (r w : Bool) (s : QState) :
    ((processQueueBody send r w s).1).isProcessing = false := by
  unfold processQueueBody
  dsimp only
  split <;> rfl

lemma processQueue_flag (net : NetState) (send : QueueItem → Except JsError ApiResult)
    (r w : Bool) (s : QState) (h : s.isProcessing = false) :
    ((processQueue net send r w s).1).isProcessing = false := by
  unfold processQueue
  rw [h]
  rcases net with _ | b | _
  · simpa using processQueueBody_flag send r w s
  · cases b <;> simp [processQueueBody_flag]
  · simp

/-- C3: within one drain pass items are attempted strictly in FIFO
(oldest-enqueued-first) order — the attempt log equals the loaded queue — and
the surviving items (identified by payload, headers and timestamp) form an
order-preserving subsequence of the queue before the pass, so their relative
order after the pass equals their relative order before it. -/
theorem drain_fifo_order (send : QueueItem → Except JsError ApiResult)
    (q : List QueueItem) :
    (processPass send q).2 = q
    ∧ ((processPass send q).1.map itemKey).Sublist (q.map itemKey) :=
  ⟨processPass_attempts send q, processPass_keys_sublist send q⟩

/-- C4: invoking `processQueue` while a pass is in flight (`isProcessing` set)
returns immediately as a no-op: the state is unchanged and no delivery attempt,
store read, store write, or scheduling change is performed. -/
theorem drain_mutual_exclusion_noop (net : NetState)
    (send : QueueItem → Except JsError ApiResult) (r w : Bool) (s : QState)
    (h : s.isProcessing = true) :
    processQueue net send r w s = (s, noEffects) := by
  unfold processQueue
  simp [h]

theorem drain_mutual_exclusion_noop_witness :
    (QState.mk (.val [mkItem 1 1 1]) true false).isProcessing = true
    ∧ processQueue .unavailable sendSucceeds false false
        (QState.mk (.val [mkItem 1 1 1]) true false)
      = (QState.mk (.val [mkItem 1 1 1]) true false, noEffects) :=
  ⟨rfl, drain_mutual_exclusion_noop .unavailable sendSucceeds false false _ rfl⟩

/-- C5: a transport call that throws is handled identically to one that reports
failure: the per-item outcome is the same (increment and keep when
`retryCount < MAX_RETRY_COUNT`, drop otherwise), and a whole `processQueue`
call with a throwing transport produces exactly the state and effects of one
with a failure-reporting transport — the exception is caught inside the loop
and never propagates out of the pass. -/
theorem transport_exception_as_failure :
    (∀ (e : JsError) (i : QueueItem),
      stepOutcome (.error e) i = stepOutcome (.ok { error := true }) i)
    ∧ (∀ (e : JsError) (net : NetState) (r w : Bool) (s : QState),
      processQueue net (fun _ => .error e) r w s
        = processQueue net (fun _ => .ok { error := true }) r w s) := by
  have hstep : ∀ (e : JsError) (i : QueueItem),
      stepOutcome (.error e) i = stepOutcome (.ok { error := true }) i := by
    intro e i
    unfold stepOutcome
    rcases Nat.lt_or_ge i.retryCount MAX_RETRY_COUNT with h | h
    · simp [h, Nat.not_le.mpr h]
    · simp [Nat.not_lt.mpr h, h]
  refine ⟨hstep, ?_⟩
  intro e net r w s
  have hpp : ∀ q, processPass (fun _ => .error e) q
      = processPass (fun _ => .ok { error := true }) q :=
    processPass_ext _ _ (fun i => hstep e i)
  simp only [processQueue, processQueueBody, hpp]

/-- C6: storage failure handling — a read that throws yields the empty queue,
nothing persisted yields the empty queue, an unparseable stored string yields
the empty queue; a write that throws leaves the persisted cell unchanged; an
`addToQueue` whose storage read and write both throw completes normally leaving
the cell unchanged; and a `processQueue` call whose storage read throws
completes normally as an empty-queue pass, with no write. No queue operation
propagates a storage error to its caller (each is a total state-transformer). -/
theorem store_errors_swallowed :
    (∀ st : StoredVal, getQueue true st = [])
    ∧ getQueue false .absent = []
    ∧ getQueue false .corrupt = []
    ∧ (∀ (q : List QueueItem) (st : StoredVal), saveQueue true q st = st)
    ∧ (∀ (it : QueueItem) (st : StoredVal), enqueueStore true true st it = st)
    ∧ (∀ (send : QueueItem → Except JsError ApiResult) (w : Bool) (st : StoredVal)
        (t : Bool),
        processQueue .unavailable send true w (QState.mk st false t)
          = (QState.mk st false t, Effects.mk [] 1 0)) := by
  refine ⟨fun st => rfl, rfl, rfl, fun q st => rfl, fun it st => rfl, ?_⟩
  intro send w st t
  unfold processQueue processQueueBody
  simp [getQueue]

/-- C7: a `processQueue` call that reaches the storage load (not already
processing; `NetInfo` unavailable or reporting connected) and finds the
persisted queue empty is a no-op: the state — including the retry timer —
is unchanged and no delivery attempt or store write happens (only the one
read). -/
theorem drain_empty_noop (net : NetState) (send : QueueItem → Except JsError ApiResult)
    (r w : Bool) (s : QState) (hflag : s.isProcessing = false)
    (hnet : net = .unavailable ∨ net = .conn true)
    (hempty : getQueue r s.stored = []) :
    processQueue net send r w s = (s, Effects.mk [] 1 0) := by
  obtain ⟨st, ip, ta⟩ := s
  simp only at hflag
  subst hflag
  simp only at hempty
  rcases hnet with h | h <;> subst h <;>
    simp [processQueue, processQueueBody, hempty]

theorem drain_empty_noop_witness :
    (QState.mk .absent false true).isProcessing = false
    ∧ (NetState.unavailable = .unavailable ∨ NetState.unavailable = .conn true)
    ∧ getQueue false StoredVal.absent = []
    ∧ processQueue .unavailable sendSucceeds false false (QState.mk .absent false true)
        = (QState.mk .absent false true, Effects.mk [] 1 0) :=
  ⟨rfl, Or.inl rfl, rfl,
    drain_empty_noop .unavailable sendSucceeds false false _ rfl (Or.inl rfl) rfl⟩

/-- C9: every `processQueue` invocation that begins a pass (the `isProcessing`
flag was clear) ends with the flag clear again, on every path: connectivity
abort, `NetInfo.fetch` throwing, empty queue, normal completion, and storage
faults — so future drain passes are never permanently blocked. -/
theorem drain_resets_flag (net : NetState) (send : QueueItem → Except JsError ApiResult)
    (r w : Bool) (s : QState) (h : s.isProcessing = false) :
    ((processQueue net send r w s).1).isProcessing = false :=
  processQueue_flag net send r w s h

theorem drain_resets_flag_witness :
    (QState.mk (.val [mkItem 1 1 1]) false false).isProcessing = false
    ∧ ((processQueue .fetchThrows sendFails true true
        (QState.mk (.val [mkItem 1 1 1]) false false)).1).isProcessing = false :=
  ⟨rfl, drain_resets_flag .fetchThrows sendFails true true _ rfl⟩

/-!  Helper lemmas for the bounded-FIFO enqueue property (C1). -/

lemma lastN_length_le (n : Nat) (l : List α) : (lastN n l).length ≤ n := by
  unfold lastN
  rw [List.length_drop]
  omega

lemma lastN_of_length_le (n : Nat) (l : List α) (h : l.length ≤ n) : lastN n l = l := by
  unfold lastN
  rw [Nat.sub_eq_zero_of_le h, List.drop_zero]

lemma lastN_absorb (n : Nat) (l m : List α) :
    lastN n (lastN n l ++ m) = lastN n (l ++ m) := by
  unfold lastN
  rw [← List.drop_append_of_le_length (Nat.sub_le l.length n), List.drop_drop,
    List.length_drop, List.length_append]
  congr 1
  omega

lemma trimQueue_eq_lastN (q : List QueueItem) (i : QueueItem) (h : q.length ≤ 50) :
    trimQueue (q ++ [i]) = lastN 50 (q ++ [i]) := by
  unfold trimQueue lastN
  rw [List.length_append]
  by_cases hlen : q.length + 1 > 50
  · have h50 : q.length = 50 := by omega
    rw [if_pos (by simpa using hlen), ← List.drop_one]
    congr 1
    simp [h50]
  · rw [if_neg (by simpa using hlen), Nat.sub_eq_zero_of_le (by simpa using hlen),
      List.drop_zero]

lemma trimQueue_length (q : List QueueItem) (h : q.length ≤ 51) :
    (trimQueue q).length ≤ 50 := by
  unfold trimQueue
  split
  · rw [List.length_tail]; omega
  · omega

lemma getQueue_length_le (r : Bool) (st : StoredVal) (h : (persisted st).length ≤ 50) :
    (getQueue r st).length ≤ 50 := by
  cases r
  · exact h
  · simp [getQueue]

lemma enqueueStore_bound (r w : Bool) (st : StoredVal) (it : QueueItem)
    (h : (persisted st).length ≤ 50) :
    (persisted (enqueueStore r w st it)).length ≤ 50 := by
  unfold enqueueStore saveQueue
  cases w
  · dsimp only
    rw [if_neg (by simp)]
    show (trimQueue (getQueue r st ++ [it])).length ≤ 50
    apply trimQueue_length
    rw [List.length_append]
    have := getQueue_length_le r st h
    simp only [List.length_cons, List.length_nil]
    omega
  · simpa using h

lemma enqueue_fold_bound (ops : List (Bool × Bool × QueueItem)) :
    ∀ st : StoredVal, (persisted st).length ≤ 50 →
    (persisted (ops.foldl (fun s p => enqueueStore p.1 p.2.1 s p.2.2) st)).length ≤ 50 := by
  induction ops with
  | nil => intro st h; exact h
  | cons p ops ih =>
    intro st h
    exact ih _ (enqueueStore_bound p.1 p.2.1 st p.2.2 h)

lemma enqueueStore_ok_eq (st : StoredVal) (it : QueueItem)
    (h : (persisted st).length ≤ 50) :
    persisted (enqueueStore false false st it) = lastN 50 (persisted st ++ [it]) := by
  unfold enqueueStore saveQueue
  dsimp only
  rw [if_neg (by simp)]
  show trimQueue (getQueue false st ++ [it]) = _
  exact trimQueue_eq_lastN _ _ h

lemma enqueue_fold_lastN (items : List QueueItem) :
    ∀ st : StoredVal, (persisted st).length ≤ 50 →
    persisted (items.foldl (fun s it => enqueueStore false false s it) st)
      = lastN 50 (persisted st ++ items) := by
  induction items with
  | nil =>
    intro st h
    rw [List.append_nil, lastN_of_length_le 50 _ h]
    rfl
  | cons it items ih =>
    intro st h
    have h1 := enqueueStore_ok_eq st it h
    have h2 : (persisted (enqueueStore false false st it)).length ≤ 50 :=
      enqueueStore_bound false false st it h
    rw [List.foldl_cons, ih _ h2, h1, lastN_absorb, List.append_assoc,
      List.singleton_append]

/-- C1: starting from a persisted queue of length at most 50, after any
sequence of `addToQueue` store updates (with arbitrary per-call storage
read/write faults) the persisted queue length never exceeds 50; and on the
fault-free path the resulting persisted queue is exactly the last 50 of the
old queue followed by the enqueued items — on overflow the oldest item is
evicted, so the queue retains the most-recently-enqueued items. -/
theorem enqueue_bounded_fifo (st : StoredVal) (h : (persisted st).length ≤ 50)
    (ops : List (Bool × Bool × QueueItem)) (items : List QueueItem) :
    (persisted (ops.foldl (fun s p => enqueueStore p.1 p.2.1 s p.2.2) st)).length ≤ 50
    ∧ persisted (items.foldl (fun s it => enqueueStore false false s it) st)
        = lastN 50 (persisted st ++ items) :=
  ⟨enqueue_fold_bound ops st h, enqueue_fold_lastN items st h⟩

theorem enqueue_bounded_fifo_witness :
    (persisted (.val [mkItem 7 7 7])).length ≤ 50
    ∧ ((persisted ([(true, false, mkItem 1 1 1)].foldl
          (fun s p => enqueueStore p.1 p.2.1 s p.2.2) (.val [mkItem 7 7 7]))).length ≤ 50
      ∧ persisted ([mkItem 2 2 2].foldl (fun s it => enqueueStore false false s it)
            (.val [mkItem 7 7 7]))
          = lastN 50 (persisted (.val [mkItem 7 7 7]) ++ [mkItem 2 2 2])) :=
  ⟨by decide,
    enqueue_bounded_fifo (.val [mkItem 7 7 7]) (by decide)
      [(true, false, mkItem 1 1 1)] [mkItem 2 2 2]⟩

/-!  Helper lemmas for the retry lifecycle (C2). -/

/-- A delivery attempt that fails: either the transport resolves with a truthy
`error` field, or it throws. -/
def Failed (r : Except JsError ApiResult) : Prop :=
  r = .ok { error := true } ∨ ∃ e, r = .error e

lemma stepOutcome_failed (r : Except JsError ApiResult) (i : QueueItem)
    (h : Failed r) :
    stepOutcome r i =
      if i.retryCount < MAX_RETRY_COUNT then
        some { i with retryCount := i.retryCount + 1 }
      else none := by
  rcases h with h | ⟨e, h⟩ <;> subst h <;> unfold stepOutcome
  · rcases Nat.lt_or_ge i.retryCount MAX_RETRY_COUNT with hlt | hge
    · simp [hlt, Nat.not_le.mpr hlt]
    · simp [Nat.not_lt.mpr hge, hge]
  · rfl

lemma processPass_failed_single (send : QueueItem → Except JsError ApiResult)
    (i : QueueItem) (h : Failed (send i)) :
    processPass send [i] =
      ((if i.retryCount < MAX_RETRY_COUNT then
          [{ i with retryCount := i.retryCount + 1 }]
        else []), [i]) := by
  rcases Nat.lt_or_ge i.retryCount MAX_RETRY_COUNT with hlt | hge
  · simp [processPass, stepOutcome_failed _ _ h, hlt]
  · simp [processPass, stepOutcome_failed _ _ h, Nat.not_lt.mpr hge]

lemma drainIter_succ (send : QueueItem → Except JsError ApiResult) (n : Nat)
    (q : List QueueItem) :
    drainIter send (n + 1) q = drainIter send n (processPass send q).1 :=
  Function.iterate_succ_apply (fun q => (processPass send q).1) n q

lemma drainIter_succ' (send : QueueItem → Except JsError ApiResult) (n : Nat)
    (q : List QueueItem) :
    drainIter send (n + 1) q = (processPass send (drainIter send n q)).1 :=
  Function.iterate_succ_apply' (fun q => (processPass send q).1) n q

lemma drainIter_failing (send : QueueItem → Except JsError ApiResult)
    (hf : ∀ j, Failed (send j)) :
    ∀ (n k : Nat) (i : QueueItem), i.retryCount = k → k + n ≤ MAX_RETRY_COUNT →
    drainIter send n [i] = [{ i with retryCount := k + n }] := by
  intro n
  induction n with
  | zero =>
    intro k i hk _
    obtain ⟨d, h, t, rc⟩ := i
    simp only at hk
    subst hk
    rfl
  | succ n ih =>
    intro k i hk hle
    have hlt : i.retryCount < MAX_RETRY_COUNT := by
      rw [hk]; unfold MAX_RETRY_COUNT at hle ⊢; omega
    rw [drainIter_succ, processPass_failed_single send i (hf i), if_pos hlt]
    have hbump : ({ i with retryCount := i.retryCount + 1 } : QueueItem).retryCount
        = k + 1 := by rw [hk]
    rw [ih (k + 1) _ hbump (by omega)]
    obtain ⟨d, h, t, rc⟩ := i
    simp only at hk
    subst hk
    have harith : rc + 1 + n = rc + (n + 1) := by omega
    rw [harith]

lemma processPass_failing_eq (send : QueueItem → Except JsError ApiResult)
    (hf : ∀ j, Failed (send j)) :
    ∀ q : List QueueItem, (processPass send q).1
      = (q.filter (fun i => i.retryCount < MAX_RETRY_COUNT)).map
          (fun i => { i with retryCount := i.retryCount + 1 }) := by
  intro q
  induction q with
  | nil => rfl
  | cons i rest ih =>
    rcases Nat.lt_or_ge i.retryCount MAX_RETRY_COUNT with hlt | hge
    · simp [processPass, stepOutcome_failed _ _ (hf i), hlt, ih]
    · simp [processPass, stepOutcome_failed _ _ (hf i), Nat.not_lt.mpr hge, ih]

/-- C2: when every delivery attempt fails, one drain pass over any queue
increments each item's `retryCount` exactly once and keeps it exactly when
`retryCount < MAX_RETRY_COUNT` (the filter/map characterization); an item
starting at `retryCount = 0` is after `n ≤ MAX_RETRY_COUNT` passes still
queued with `retryCount = n`, and after exactly `MAX_RETRY_COUNT + 1` passes
absent; and one drain pass (for any transport behaviour) over a queue whose
items satisfy `retryCount ≤ MAX_RETRY_COUNT` yields only items with
`retryCount ≤ MAX_RETRY_COUNT` (enqueued items start at 0), so every item
ever persisted satisfies `0 ≤ retryCount ≤ MAX_RETRY_COUNT`. -/
theorem retry_count_lifecycle (send : QueueItem → Except JsError ApiResult)
    (hf : ∀ j, Failed (send j)) (q : List QueueItem)
    (hq : ∀ i ∈ q, i.retryCount ≤ MAX_RETRY_COUNT)
    (it : QueueItem) (h0 : it.retryCount = 0) (n : Nat) (hn : n ≤ MAX_RETRY_COUNT) :
    (∀ i ∈ (processPass send q).1, i.retryCount ≤ MAX_RETRY_COUNT)
    ∧ (processPass send q).1
        = (q.filter (fun i => i.retryCount < MAX_RETRY_COUNT)).map
            (fun i => { i with retryCount := i.retryCount + 1 })
    ∧ drainIter send n [it] = [{ it with retryCount := n }]
    ∧ drainIter send (MAX_RETRY_COUNT + 1) [it] = [] := by
  refine ⟨processPass_rc_le send q hq, processPass_failing_eq send hf q, ?_, ?_⟩
  · have := drainIter_failing send hf n 0 it h0 (by omega)
    simpa using this
  · rw [drainIter_succ', drainIter_failing send hf MAX_RETRY_COUNT 0 it h0 (by omega)]
    rw [processPass_failed_single send _ (hf _)]
    rw [if_neg (by simp)]

theorem retry_count_lifecycle_witness :
    (∀ j, Failed (sendFails j))
    ∧ (∀ i ∈ [mkItem 5 5 5], i.retryCount ≤ MAX_RETRY_COUNT)
    ∧ (mkItem 9 9 9).retryCount = 0
    ∧ MAX_RETRY_COUNT ≤ MAX_RETRY_COUNT
    ∧ ((∀ i ∈ (processPass sendFails [mkItem 5 5 5]).1, i.retryCount ≤ MAX_RETRY_COUNT)
      ∧ (processPass sendFails [mkItem 5 5 5]).1
          = ([mkItem 5 5 5].filter (fun i => i.retryCount < MAX_RETRY_COUNT)).map
              (fun i => { i with retryCount := i.retryCount + 1 })
      ∧ drainIter sendFails MAX_RETRY_COUNT [mkItem 9 9 9]
          = [{ mkItem 9 9 9 with retryCount := MAX_RETRY_COUNT }]
      ∧ drainIter sendFails (MAX_RETRY_COUNT + 1) [mkItem 9 9 9] = []) :=
  ⟨fun j => Or.inl rfl, by decide, rfl, Nat.le_refl _,
    retry_count_lifecycle sendFails (fun j => Or.inl rfl) [mkItem 5 5 5] (by decide)
      (mkItem 9 9 9) rfl MAX_RETRY_COUNT (Nat.le_refl _)⟩

/-!  Helper lemmas for the fallback-schedule self-healing invariant (C8). -/

lemma body_inv (send : QueueItem → Except JsError ApiResult) (st : StoredVal) (t : Bool) :
    PendingImpliesArmed ((processQueueBody send false false (QState.mk st false t)).1)
    ∧ ((processQueueBody send false false (QState.mk st false t)).1).isProcessing
        = false := by
  refine ⟨?_, processQueueBody_flag send false false _⟩
  unfold processQueueBody PendingImpliesArmed
  dsimp only
  by_cases hq : (getQueue false st).length = 0
  · rw [if_pos hq]
    intro hne
    exact absurd (List.length_eq_zero.mp hq) hne
  · rw [if_neg hq]
    dsimp only [persisted]
    by_cases hr : (processPass send (getQueue false st)).1.length = 0
    · intro hne
      exact absurd (List.length_eq_zero.mp hr) (by simpa [saveQueue, getQueue] using hne)
    · intro _
      simp [hr]

lemma processQueue_unavailable_inv (send : QueueItem → Except JsError ApiResult)
    (s : QState) (h : s.isProcessing = false) :
    PendingImpliesArmed ((processQueue .unavailable send false false s).1)
    ∧ ((processQueue .unavailable send false false s).1).isProcessing = false := by
  obtain ⟨st, ip, t⟩ := s
  simp only at h
  subst h
  have : processQueue .unavailable send false false (QState.mk st false t)
      = processQueueBody send false false (QState.mk st false t) := by
    unfold processQueue
    rfl
  rw [this]
  exact body_inv send st t

lemma stepEvent_inv (e : SysEvent) (s : QState) (h : s.isProcessing = false)
    (hp : PendingImpliesArmed s) :
    PendingImpliesArmed (stepEvent e s) ∧ (stepEvent e s).isProcessing = false := by
  cases e with
  | enqueue d hh now send =>
    exact processQueue_unavailable_inv send _ (by simpa using h)
  | timerFire send =>
    by_cases ht : s.timerArmed = true
    · simp only [stepEvent, ht, if_pos]
      exact processQueue_unavailable_inv send _ (by simpa using h)
    · simp only [stepEvent, ht, if_false, Bool.false_eq_true]
      exact ⟨hp, h⟩

lemma runEvents_inv (evs : List SysEvent) :
    ∀ s : QState, s.isProcessing = false → PendingImpliesArmed s →
    PendingImpliesArmed (runEvents evs s) ∧ (runEvents evs s).isProcessing = false := by
  induction evs with
  | nil => intro s h hp; exact ⟨hp, h⟩
  | cons e evs ih =>
    intro s h hp
    have hstep := stepEvent_inv e s h hp
    exact ih (stepEvent e s) hstep.2 hstep.1

lemma initSys_props (send : QueueItem → Except JsError ApiResult) (s : QState)
    (h : s.isProcessing = false) :
    (initSys send s).timerArmed = true ∧ (initSys send s).isProcessing = false
    ∧ PendingImpliesArmed (initSys send s) := by
  have hflag := (processQueue_unavailable_inv send s h).2
  unfold initSys
  refine ⟨rfl, hflag, ?_⟩
  intro _
  rfl

/-- C8: with `NetInfo` unavailable (fault-free store, atomic passes), `init`
always leaves the fallback retry timer armed, and from any state reachable
from `init` by `addToQueue` calls and timer firings, whenever the persisted
queue is non-empty a future timer-driven drain pass is armed — the system
degrades to time-based retry and still self-heals. -/
theorem fallback_schedule_self_heals (send0 : QueueItem → Except JsError ApiResult)
    (s0 : QState) (h : s0.isProcessing = false) (evs : List SysEvent) :
    (initSys send0 s0).timerArmed = true
    ∧ PendingImpliesArmed (runEvents evs (initSys send0 s0)) := by
  obtain ⟨h1, h2, h3⟩ := initSys_props send0 s0 h
  exact ⟨h1, (runEvents_inv evs _ h2 h3).1⟩

theorem fallback_schedule_self_heals_witness :
    (QState.mk (.val [mkItem 1 1 1]) false false).isProcessing = false
    ∧ ((initSys sendFails (QState.mk (.val [mkItem 1 1 1]) false false)).timerArmed = true
      ∧ PendingImpliesArmed (runEvents
          [.timerFire sendFails, .enqueue 2 2 2 sendSucceeds]
          (initSys sendFails (QState.mk (.val [mkItem 1 1 1]) false false)))) :=
  ⟨rfl, fallback_schedule_self_heals sendFails _ rfl
    [.timerFire sendFails, .enqueue 2 2 2 sendSucceeds]⟩

/-- C10 counter-evidence: `calculateDriverCollection` on a B2C order whose
`order_cost` is the non-numeric string `'abc'` (with
`cash_to_be_collected = '10'`, `delivery_fee_paid_by = 'customer'`,
`order_source = 'customer_app'`) returns `totalAmount = NaN`: the
`isNaN(deliveryFees)` check at lines 281-284 only logs and — contrary to its
own comment `Continue with deliveryFees = 0` — never resets the value, and
`Math.max(0, NaN)` is `NaN`, so the B2C sum `safeCashToCollect +
safeDeliveryFees` is `NaN`, not a non-negative finite number. -/
theorem b2c_nan_total_on_bad_order_cost :
    (calculateDriverCollection (some badOrder)).totalAmount = JNum.nan
    ∧ (calculateDriverCollection (some badOrder)).orderType = "B2C" := by
  constructor <;> rfl
